import Mathlib

/-!
Verification of the screen-space render layer of
`iid/lighting_optimization/render.py` (class `IIR_SSRT_RenderLayer` and the
helper `create_frame`).

Per-pixel float tensors are embedded as real-valued quantities: a 3-channel
pixel value is a `Vec3`, a per-sample stack is a `List`, and the spatial grid
is either quantified over pixel coordinates or represented as a list of
pixels.  Python integers are `ℤ`/`ℕ`; Python `a[t:b]` slicing clamps the stop
index to the length, which is modelled explicitly.
-/

namespace IIDRender

/-- A 3-component vector (one pixel of a 3-channel tensor). -/
structure Vec3 where
  x : ℝ
  y : ℝ
  z : ℝ

/-- Dot product of two `Vec3`. -/
def dotV (a b : Vec3) : ℝ := a.x * b.x + a.y * b.y + a.z * b.z

/-- Cross product of two `Vec3`. -/
def crossV (a b : Vec3) : Vec3 :=
  ⟨a.y * b.z - a.z * b.y, a.z * b.x - a.x * b.z, a.x * b.y - a.y * b.x⟩

/-- Euclidean norm, as computed by `torch` for a 3-channel pixel. -/
noncomputable def normV (a : Vec3) : ℝ := Real.sqrt (dotV a a)

/-- `torch.nn.functional.normalize(v, dim=1, eps)`: `v / max(‖v‖, eps)`. -/
noncomputable def normalizeV (v : Vec3) (eps : ℝ) : Vec3 :=
  ⟨v.x / max (normV v) eps, v.y / max (normV v) eps, v.z / max (normV v) eps⟩

/-- The sign used by `create_frame` (render.py line 266):
`torch.where(z >= 0, 1.0, -1.0)` — zero maps to `+1`. -/
noncomputable def sgnOf (c : ℝ) : ℝ := if 0 ≤ c then 1 else -1

/-- The branchless basis construction of `create_frame` (render.py lines
266-271), applied to the already-normalized normal `z`. -/
noncomputable def frameFromUnit (z : Vec3) : Vec3 × Vec3 × Vec3 :=
  let sgn := sgnOf z.z
  let a := -1 / (sgn + z.z)
  let b := z.x * z.y * a
  (⟨1 + sgn * z.x * z.x * a, sgn * b, -(sgn * z.x)⟩,
   ⟨b, sgn + z.y * z.y * a, -z.y⟩, z)

/-- `create_frame` (render.py lines 259-271): epsilon-floored normalization
of the input normal (line 265), then the branchless basis construction. -/
noncomputable def create_frame (n : Vec3) (eps : ℝ) : Vec3 × Vec3 × Vec3 :=
  frameFromUnit (normalizeV n eps)

/-- World→local transform (render.py lines 96-98 and 128-130): the local
components are the dot products of the world vector with the frame axes. -/
def toLocal (cx cy cz w : Vec3) : Vec3 := ⟨dotV w cx, dotV w cy, dotV w cz⟩

/-- Double-sided folding (render.py lines 99-100 and 131-132): replace the
local z-component by its absolute value when the flag is set. -/
def foldZ (doubleSided : Bool) (w : Vec3) : Vec3 :=
  if doubleSided then ⟨w.x, w.y, |w.z|⟩ else w

/-- The view direction in the local frame after folding (lines 96-100). -/
def wiFolded (ds : Bool) (cx cy cz v : Vec3) : Vec3 := foldZ ds (toLocal cx cy cz v)

/-- The grazing mask for the view direction (lines 102-103):
`0` where the pre-clamp local z is below `1e-6`, `1` elsewhere. -/
noncomputable def wiMaskVal (ds : Bool) (cx cy cz v : Vec3) : ℝ :=
  if (wiFolded ds cx cy cz v).z < 1e-6 then 0 else 1

/-- The z-clamp (line 105): `torch.clamp(wi_z, min=1e-3)`. -/
def clampZ (w : Vec3) : Vec3 := ⟨w.x, w.y, max w.z 1e-3⟩

/-- The view direction after the clamp step (line 105). -/
def wiClamped (ds : Bool) (cx cy cz v : Vec3) : Vec3 := clampZ (wiFolded ds cx cy cz v)

/-- The view direction after renormalization (line 106), the final `wi`. -/
noncomputable def wiFinal (ds : Bool) (cx cy cz v : Vec3) : Vec3 :=
  normalizeV (wiClamped ds cx cy cz v) 1e-6

/-- The sampled incident direction in the local frame as the forward pass
computes it (render.py lines 128-132): frame transform, then double-sided
folding when enabled — and nothing further. -/
def woProcessed (ds : Bool) (cx cy cz w : Vec3) : Vec3 :=
  let wo : Vec3 := ⟨dotV w cx, dotV w cy, dotV w cz⟩
  if ds then ⟨wo.x, wo.y, |wo.z|⟩ else wo

/-- `torch.clamp(x, min=0.001)`. -/
noncomputable def clampMin001 (x : ℝ) : ℝ := max x 0.001

/-- The BRDF weighting density (render.py lines 151-153): a tensor of ones,
clamped below at `0.001`. -/
noncomputable def pdfs_brdf : ℝ := clampMin001 1

/-- `brdfDiffuse` per sample (line 155): the raw diffuse BRDF evaluation
divided by the weighting density. -/
noncomputable def brdfDiffuseOf (evalDiff : ℝ) : ℝ := evalDiff / pdfs_brdf

/-- `brdfSpec` per sample (line 156). -/
noncomputable def brdfSpecOf (evalSpec : ℝ) : ℝ := evalSpec / pdfs_brdf

/-- C10: the BRDF weighting density is identically 1 — the clamp at 0.001 is
a no-op on a tensor of ones — so dividing the BRDF evaluations by it is the
identity: `brdfDiffuse` and `brdfSpec` equal the raw evaluations. -/
theorem pdfs_brdf_division_is_identity :
    pdfs_brdf = 1 ∧ (∀ e : ℝ, brdfDiffuseOf e = e) ∧ (∀ e : ℝ, brdfSpecOf e = e) := by
  have h1 : pdfs_brdf = 1 := by
    unfold pdfs_brdf clampMin001
    rw [max_eq_left]
    norm_num
  refine ⟨h1, fun e => ?_, fun e => ?_⟩
  · unfold brdfDiffuseOf
    rw [h1, div_one]
  · unfold brdfSpecOf
    rw [h1, div_one]

/-- C6: for the view direction in each pixel's local frame, the mask is `0`
exactly when the pre-clamp local z is below `1e-6` and `1` otherwise, and
after the clamp step the local z is at least `1e-3`. -/
theorem wi_mask_and_clamp (ds : Bool) (cx cy cz v : Vec3) :
    (wiMaskVal ds cx cy cz v = 0 ↔ (wiFolded ds cx cy cz v).z < 1e-6) ∧
    (wiMaskVal ds cx cy cz v = 1 ↔ ¬ (wiFolded ds cx cy cz v).z < 1e-6) ∧
    (1e-3 : ℝ) ≤ (wiClamped ds cx cy cz v).z := by
  refine ⟨?_, ?_, ?_⟩
  · unfold wiMaskVal
    split
    next h => simpa using h
    next h => simpa using h
  · unfold wiMaskVal
    split
    next h => simpa using h
    next h => simpa using h
  · unfold wiClamped clampZ
    exact le_max_right _ _

/-- C3 counterexample: the sampled directions do NOT receive the grazing
mask / z-clamp / renormalization treatment that the view direction gets.
At the identity frame with local direction `(1,0,0)` (exactly grazing), the
processed `wo` keeps `z = 0`, while the fully processed `wi` has `z > 0`
after the clamp and renormalization. -/
theorem wo_treatment_differs_from_wi :
    woProcessed true ⟨1, 0, 0⟩ ⟨0, 1, 0⟩ ⟨0, 0, 1⟩ ⟨1, 0, 0⟩ ≠
    wiFinal true ⟨1, 0, 0⟩ ⟨0, 1, 0⟩ ⟨0, 0, 1⟩ ⟨1, 0, 0⟩ := by
  intro h
  have hz := congrArg Vec3.z h
  have hwo : (woProcessed true ⟨1, 0, 0⟩ ⟨0, 1, 0⟩ ⟨0, 0, 1⟩ ⟨1, 0, 0⟩).z = 0 := by
    unfold woProcessed dotV
    norm_num
  have hclampz : (wiClamped true ⟨1, 0, 0⟩ ⟨0, 1, 0⟩ ⟨0, 0, 1⟩ ⟨1, 0, 0⟩).z = 1e-3 := by
    unfold wiClamped clampZ wiFolded foldZ toLocal dotV
    norm_num
  have hpos : 0 < (wiFinal true ⟨1, 0, 0⟩ ⟨0, 1, 0⟩ ⟨0, 0, 1⟩ ⟨1, 0, 0⟩).z := by
    unfold wiFinal normalizeV
    apply div_pos
    · rw [hclampz]; norm_num
    · have : (1e-6 : ℝ) ≤ max (normV (wiClamped true ⟨1, 0, 0⟩ ⟨0, 1, 0⟩ ⟨0, 0, 1⟩ ⟨1, 0, 0⟩)) 1e-6 :=
        le_max_right _ _
      linarith
  rw [hwo] at hz
  linarith [hpos, hz]

/-- C3 amended: the sampled incident directions receive exactly the view
direction's treatment up to and including the frame transform and the
double-sided folding — the `wo` computed at lines 128-132 coincides with the
`wi` pipeline's post-folding stage — but not the later mask/clamp/renormalize
steps. -/
theorem wo_matches_wi_fold_stage (ds : Bool) (cx cy cz w : Vec3) :
    woProcessed ds cx cy cz w = wiFolded ds cx cy cz w := by
  unfold woProcessed wiFolded foldZ toLocal
  cases ds <;> simp

/-- C3 amended, witness: a concrete frame and direction. -/
theorem wo_matches_wi_fold_stage_witness :
    woProcessed true ⟨1, 0, 0⟩ ⟨0, 1, 0⟩ ⟨0, 0, 1⟩ ⟨0, 0, 1⟩ =
    wiFolded true ⟨1, 0, 0⟩ ⟨0, 1, 0⟩ ⟨0, 0, 1⟩ ⟨0, 0, 1⟩ :=
  wo_matches_wi_fold_stage true ⟨1, 0, 0⟩ ⟨0, 1, 0⟩ ⟨0, 0, 1⟩ ⟨0, 0, 1⟩

/-- C6 witness: a concrete frame and view direction. -/
theorem wi_mask_and_clamp_witness :
    (wiMaskVal true ⟨1, 0, 0⟩ ⟨0, 1, 0⟩ ⟨0, 0, 1⟩ ⟨0, 0, 1⟩ = 0 ↔
      (wiFolded true ⟨1, 0, 0⟩ ⟨0, 1, 0⟩ ⟨0, 0, 1⟩ ⟨0, 0, 1⟩).z < 1e-6) ∧
    (wiMaskVal true ⟨1, 0, 0⟩ ⟨0, 1, 0⟩ ⟨0, 0, 1⟩ ⟨0, 0, 1⟩ = 1 ↔
      ¬ (wiFolded true ⟨1, 0, 0⟩ ⟨0, 1, 0⟩ ⟨0, 0, 1⟩ ⟨0, 0, 1⟩).z < 1e-6) ∧
    (1e-3 : ℝ) ≤ (wiClamped true ⟨1, 0, 0⟩ ⟨0, 1, 0⟩ ⟨0, 0, 1⟩ ⟨0, 0, 1⟩).z :=
  wi_mask_and_clamp true ⟨1, 0, 0⟩ ⟨0, 1, 0⟩ ⟨0, 0, 1⟩ ⟨0, 0, 1⟩

/-- The clipping bounds (render.py lines 82-85 and 109-113), as Python ints:
`center_x = col // 2`, `center_y = row // 2`, `radius = max(center_x,
center_y)`, and `(top, bottom, left, right)` as used by the slices at lines
114-121. -/
def clipBounds (row col : ℕ) : ℤ × ℤ × ℤ × ℤ :=
  let center_x : ℤ := (col : ℤ) / 2
  let center_y : ℤ := (row : ℤ) / 2
  let radius : ℤ := max center_x center_y
  (max (center_y - radius) 0, center_y + radius,
   max (center_x - radius) 0, center_x + radius)

/-- Python slicing `a[t:b]` on an axis of length `len` (with `t, b ≥ 0`, the
case here) keeps indices `i` with `t ≤ i < min b len`.  Pixel `(i, j)` of the
H×W grid survives the clipping slices of lines 114-121 iff: -/
def keptPixel (row col i j : ℕ) : Bool :=
  let tb := clipBounds row col
  decide (tb.1 ≤ (i : ℤ)) && decide ((i : ℤ) < min tb.2.1 (row : ℤ)) &&
  decide (tb.2.2.1 ≤ (j : ℤ)) && decide ((j : ℤ) < min tb.2.2.2 (col : ℤ))

/-- Modelled from the spec claim (claim side, for comparison with
`keptPixel`): membership in the largest axis-aligned square centered on the
image that fits within the image bounds — side `min(H, W)`, top-left corner
`((H - side) / 2, (W - side) / 2)`. -/
def specCentralSquareKept (row col i j : ℕ) : Bool :=
  let side := min row col
  let t := (row - side) / 2
  let l := (col - side) / 2
  decide (t ≤ i) && decide (i < t + side) && decide (l ≤ j) && decide (j < l + side)

/-- C2 counterexample: on the non-square 2×4 image, pixel (0, 0) lies outside
the central 2×2 square but is kept by the code's clipping (the code's radius
is `max(center_x, center_y)`, not `min`, so with Python slice clamping the
whole image survives), refuting the claim that the grids are clipped to the
central square. -/
theorem clip_not_central_square :
    keptPixel 2 4 0 0 = true ∧ specCentralSquareKept 2 4 0 0 = false := by
  decide

/-- C2 amended: the radius is `max(center_x, center_y)`, so for every image
with even height and width (square or not) the clipping window, after Python
slice clamping, is the entire image: every pixel is kept and none is excluded
from tracing or contributions. -/
theorem clip_window_is_full_image (row col i j : ℕ)
    (hr : Even row) (hc : Even col) :
    keptPixel row col i j = true ↔ i < row ∧ j < col := by
  obtain ⟨m, hm⟩ := hr
  obtain ⟨k, hk⟩ := hc
  subst hm hk
  simp only [keptPixel, clipBounds, Bool.and_eq_true, decide_eq_true_eq]
  omega

/-- C2 amended, witness: the even 2×4 image at pixel (1, 3). -/
theorem clip_window_is_full_image_witness :
    Even 2 ∧ Even 4 ∧ (keptPixel 2 4 1 3 = true ↔ 1 < 2 ∧ 3 < 4) :=
  ⟨by decide, by decide, clip_window_is_full_image 2 4 1 3 (by decide) (by decide)⟩

/-- The Python error raised by `float(imHeight)/float(imWidth)` when
`imWidth = 0`. -/
inductive PyInitError where
  | zeroDivisionError
deriving DecidableEq

/-- The configuration fields stored by `IIR_SSRT_RenderLayer.__init__`
(render.py lines 28-56). -/
structure RenderLayerCfg where
  imWidth : ℕ
  imHeight : ℕ
  spp : ℕ
  brdf_type : String
  double_sided : Bool
  use_ssrt : Bool
  use_specular : Bool

/-- `Except.isOk`. -/
def isOkE {ε α : Type} : Except ε α → Bool
  | .ok _ => true
  | .error _ => false

/-- `IIR_SSRT_RenderLayer.__init__` (render.py lines 17-60), modelled for its
failure behaviour: the constructor performs no parameter validation (the
`assert(brdf_type in [...])` at line 54 is commented out in the source); the
only operation that can raise is `float(imHeight)/float(imWidth)` at line 38,
a Python ZeroDivisionError when `imWidth = 0`.  The numeric camera buffers
(`xRange`, `yRange`, `v`, `pCoord`) are total functions of the inputs and are
not needed by any claim, so only the stored configuration is recorded. -/
def layerInit (imWidth imHeight spp : ℕ) (brdf_type : String)
    (double_sided use_ssrt use_specular : Bool) :
    Except PyInitError RenderLayerCfg :=
  if imWidth = 0 then .error .zeroDivisionError
  else .ok ⟨imWidth, imHeight, spp, brdf_type, double_sided, use_ssrt, use_specular⟩

/-- C4 counterexample: construction with `spp = 0` succeeds, construction
with a BRDF kind outside the enumerated set succeeds, and construction with
`imWidth = 0` fails with a ZeroDivisionError raised inside the camera-buffer
computation — there is no ConfigurationError and no validation before the
buffers are built. -/
theorem init_performs_no_validation :
    isOkE (layerInit 320 240 0 "ggx" true false false) = true ∧
    isOkE (layerInit 320 240 1 "not_a_brdf" true false false) = true ∧
    layerInit 0 240 1 "ggx" true false false = .error .zeroDivisionError :=
  ⟨rfl, rfl, rfl⟩

/-- C4 amended: construction fails exactly when `imWidth = 0`, and then with
a Python ZeroDivisionError from the aspect-ratio division at line 38 (raised
during camera-buffer computation); `spp`, `imHeight` and the BRDF kind are
never validated. -/
theorem init_fails_iff_zero_width (w h spp : ℕ) (b : String) (ds us usp : Bool) :
    (isOkE (layerInit w h spp b ds us usp) = true ↔ w ≠ 0) ∧
    (w = 0 → layerInit w h spp b ds us usp = .error .zeroDivisionError) := by
  constructor
  · unfold layerInit
    split
    next hw => simp [isOkE, hw]
    next hw => simp [isOkE, hw]
  · intro hw
    unfold layerInit
    simp [hw]

/-- C4 amended, witness: zero width with otherwise arbitrary parameters. -/
theorem init_fails_iff_zero_width_witness :
    layerInit 0 7 2 "ggx" false true true = .error .zeroDivisionError :=
  (init_fails_iff_zero_width 0 7 2 "ggx" false true true).2 rfl

/-- A tensor shape `(bn, c, h, w)`. -/
structure TShape where
  bn : ℕ
  c : ℕ
  h : ℕ
  w : ℕ

/-- The Python AssertionError raised by the `assert` statements. -/
inductive FwdError where
  | assertionError

/-- The shape validation at the top of `forward` (render.py lines 77-79):
`bn, _, row, col = albedo.shape`, `assert bn == 1`, `assert row == imHeight
and col == imWidth`.  Only the albedo tensor's shape is examined; the rough,
metal, normal and vpos shapes are never read here. -/
def forwardShapeCheck (L : RenderLayerCfg)
    (albedo rough metal normal vpos : TShape) : Except FwdError Unit :=
  if albedo.bn = 1 then
    if albedo.h = L.imHeight ∧ albedo.w = L.imWidth then .ok ()
    else .error .assertionError
  else .error .assertionError

/-- C9 counterexample: with a well-shaped albedo, a rough tensor of batch
size 2 (and a metal tensor with wrong spatial size) pass the forward-call
validation — the call does not fail with a shape error, refuting the claim
that a mismatch in any of the five inputs is rejected. -/
theorem shape_check_misses_non_albedo_mismatch :
    isOkE (forwardShapeCheck ⟨4, 4, 1, "ggx", true, false, false⟩
      ⟨1, 3, 4, 4⟩ ⟨2, 1, 4, 4⟩ ⟨1, 1, 5, 7⟩ ⟨1, 3, 4, 4⟩ ⟨1, 3, 4, 4⟩) = true ∧
    (2 : ℕ) ≠ 1 := by
  decide

/-- C9 amended: the forward-call shape validation examines the albedo tensor
alone — its result is independent of the other four shapes — and succeeds iff
albedo has batch size 1 and spatial size equal to the constructed (H, W). -/
theorem shape_check_only_validates_albedo (L : RenderLayerCfg)
    (a r m n v r' m' n' v' : TShape) :
    forwardShapeCheck L a r m n v = forwardShapeCheck L a r' m' n' v' ∧
    (isOkE (forwardShapeCheck L a r m n v) = true ↔
      (a.bn = 1 ∧ a.h = L.imHeight ∧ a.w = L.imWidth)) := by
  refine ⟨rfl, ?_⟩
  unfold forwardShapeCheck
  split
  next h1 =>
    split
    next h2 => simp [isOkE, h1, h2]
    next h2 => simp [isOkE, h1, h2]
  next h1 => simp [isOkE, h1]

/-- C9 amended, witness: a concrete configuration; varying the four
non-albedo shapes leaves the validation result unchanged. -/
theorem shape_check_only_validates_albedo_witness :
    forwardShapeCheck ⟨4, 4, 1, "ggx", true, false, false⟩ ⟨1, 3, 4, 4⟩
      ⟨1, 1, 4, 4⟩ ⟨1, 1, 4, 4⟩ ⟨1, 3, 4, 4⟩ ⟨1, 3, 4, 4⟩ =
    forwardShapeCheck ⟨4, 4, 1, "ggx", true, false, false⟩ ⟨1, 3, 4, 4⟩
      ⟨2, 9, 9, 9⟩ ⟨2, 9, 9, 9⟩ ⟨2, 9, 9, 9⟩ ⟨2, 9, 9, 9⟩ ∧
    (isOkE (forwardShapeCheck ⟨4, 4, 1, "ggx", true, false, false⟩ ⟨1, 3, 4, 4⟩
      ⟨1, 1, 4, 4⟩ ⟨1, 1, 4, 4⟩ ⟨1, 3, 4, 4⟩ ⟨1, 3, 4, 4⟩) = true ↔
      ((1 : ℕ) = 1 ∧ (4 : ℕ) = 4 ∧ (4 : ℕ) = 4)) :=
  shape_check_only_validates_albedo ⟨4, 4, 1, "ggx", true, false, false⟩
    ⟨1, 3, 4, 4⟩ ⟨1, 1, 4, 4⟩ ⟨1, 1, 4, 4⟩ ⟨1, 3, 4, 4⟩ ⟨1, 3, 4, 4⟩
    ⟨2, 9, 9, 9⟩ ⟨2, 9, 9, 9⟩ ⟨2, 9, 9, 9⟩ ⟨2, 9, 9, 9⟩

/-- The gating of the sampled world directions (render.py lines 165-166):
when `use_ssrt` is enabled, `direction = direction[-1:]` keeps only the last
of the `spp` per-sample slabs. -/
def directionAfterGate {α : Type} (use_ssrt : Bool) (dirs : List α) : List α :=
  if use_ssrt then dirs.drop (dirs.length - 1) else dirs

/-- The per-sample direction slabs handed to the `ssrt` tracer
(lines 167-168 and 201): the gated list, reached only when `use_ssrt`. -/
def ssrtDirections {α : Type} (dirs : List α) : List α :=
  directionAfterGate true dirs

/-- The per-sample direction slabs whose radiance the lighting model is asked
for (line 232): the (possibly gated) direction list. -/
def lightDirections {α : Type} (use_ssrt : Bool) (dirs : List α) : List α :=
  directionAfterGate use_ssrt dirs

/-- Dropping all but one element of a nonempty list leaves its last. -/
theorem drop_len_sub_one_eq_getLast {α : Type} (l : List α) (h : l ≠ []) :
    l.drop (l.length - 1) = [l.getLast h] := by
  induction l with
  | nil => exact absurd rfl h
  | cons a t ih =>
    cases t with
    | nil => rfl
    | cons b t2 =>
      have h2 : b :: t2 ≠ [] := List.cons_ne_nil _ _
      have hrec := ih h2
      have hlen : (a :: b :: t2).length - 1 = t2.length + 1 := by simp
      have hlen2 : (b :: t2).length - 1 = t2.length := by simp
      rw [hlen, List.drop_succ_cons]
      rw [hlen2] at hrec
      rw [hrec]
      rw [List.getLast_cons h2]

/-- C7: when visibility tracing is enabled, exactly one per-sample direction
slab — the last of the `spp` samples — is passed to the screen-space tracer,
the same single slab is the one whose radiance is used for shading, and the
remaining `spp - 1` slabs are dropped before tracing. -/
theorem ssrt_traces_only_last_sample {α : Type} (dirs : List α) (h : dirs ≠ []) :
    ssrtDirections dirs = [dirs.getLast h] ∧
    (ssrtDirections dirs).length = 1 ∧
    lightDirections true dirs = ssrtDirections dirs := by
  have hmain : ssrtDirections dirs = [dirs.getLast h] := by
    unfold ssrtDirections directionAfterGate
    simp only [if_true]
    exact drop_len_sub_one_eq_getLast dirs h
  exact ⟨hmain, by rw [hmain]; rfl, rfl⟩

/-- C7 witness: a three-sample direction list. -/
theorem ssrt_traces_only_last_sample_witness :
    ([10, 20, 30] : List ℕ) ≠ [] ∧
    (ssrtDirections [10, 20, 30] = [([10, 20, 30] : List ℕ).getLast (by decide)] ∧
     (ssrtDirections ([10, 20, 30] : List ℕ)).length = 1 ∧
     lightDirections true ([10, 20, 30] : List ℕ) = ssrtDirections [10, 20, 30]) :=
  ⟨by decide, ssrt_traces_only_last_sample [10, 20, 30] (by decide)⟩

/-- One Monte-Carlo sample at one pixel, as seen by the integrator
(render.py lines 234-248): the raw BRDF evaluations, the lighting model's
predicted radiance, the lighting model's raw direction density, and the local
z-component of the sampled direction. -/
structure IntSample where
  evalDiff : ℝ
  evalSpec : ℝ
  light : ℝ
  pdfEmitterRaw : ℝ
  woZ : ℝ

/-- `pdf_emitter` after the floor (lines 234-235):
`torch.clamp(pdf, min=0.001)`. -/
noncomputable def pdfEmitterOf (s : IntSample) : ℝ := clampMin001 s.pdfEmitterRaw

/-- `ndl` (line 236): `torch.clamp(wo_z, min=0)`. -/
noncomputable def ndlOf (s : IntSample) : ℝ := max s.woZ 0

/-- The weighted light per sample (line 242): `light * ndl / pdf_emitter`. -/
noncomputable def weightedLight (s : IntSample) : ℝ :=
  s.light * ndlOf s / pdfEmitterOf s

/-- `torch.mean` over the sample axis. -/
noncomputable def meanR (l : List ℝ) : ℝ := l.sum / l.length

/-- `colorDiffuse` at one pixel (line 244):
`torch.mean(brdfDiffuse * light, dim=1)`. -/
noncomputable def colorDiffusePx (samples : List IntSample) : ℝ :=
  meanR (samples.map fun s => brdfDiffuseOf s.evalDiff * weightedLight s)

/-- `colorSpec` at one pixel when specular is enabled (line 246). -/
noncomputable def colorSpecPx (samples : List IntSample) : ℝ :=
  meanR (samples.map fun s => brdfSpecOf s.evalSpec * weightedLight s)

/-- The diffuse output over the image, one entry per pixel (line 244). -/
noncomputable def colorDiffuseImg (pixels : List (List IntSample)) : List ℝ :=
  pixels.map colorDiffusePx

/-- The specular output over the image (lines 245-248): the analogous mean
when enabled, `torch.zeros_like(colorDiffuse)` when disabled. -/
noncomputable def colorSpecImg (use_specular : Bool)
    (pixels : List (List IntSample)) : List ℝ :=
  if use_specular then pixels.map colorSpecPx
  else (colorDiffuseImg pixels).map fun _ => 0

/-- Modelled from the claim's wording, for comparison with `colorDiffusePx`:
mean over samples of `brdf_diffuse * (light * max(wo.z, 0) / pdf_emitter) /
brdf_density` with `pdf_emitter` floored at 0.001. -/
noncomputable def claimDiffusePx (samples : List IntSample) : ℝ :=
  meanR (samples.map fun s =>
    s.evalDiff * (s.light * max s.woZ 0 / max s.pdfEmitterRaw 0.001) / pdfs_brdf)

/-- The claim's wording for the specular channel. -/
noncomputable def claimSpecPx (samples : List IntSample) : ℝ :=
  meanR (samples.map fun s =>
    s.evalSpec * (s.light * max s.woZ 0 / max s.pdfEmitterRaw 0.001) / pdfs_brdf)

/-- C1: at every pixel the diffuse output equals the mean over the samples of
`brdf_diffuse * (light * max(wo.z, 0) / pdf_emitter) / brdf_density` with the
emitter density floored at 0.001, the specular output (when enabled) is the
analogous mean of the specular BRDF term, and when the specular flag is
disabled the specular output is an all-zero list of the same length as the
diffuse output. -/
theorem forward_color_formula (pixels : List (List IntSample)) :
    colorDiffuseImg pixels = pixels.map claimDiffusePx ∧
    colorSpecImg true pixels = pixels.map claimSpecPx ∧
    (colorSpecImg false pixels).length = (colorDiffuseImg pixels).length ∧
    (∀ c ∈ colorSpecImg false pixels, c = (0 : ℝ)) := by
  have hpxd : ∀ samples : List IntSample, colorDiffusePx samples = claimDiffusePx samples := by
    intro samples
    unfold colorDiffusePx claimDiffusePx
    congr 1
    apply List.map_congr_left
    intro s _
    unfold brdfDiffuseOf weightedLight ndlOf pdfEmitterOf clampMin001
    ring
  have hpxs : ∀ samples : List IntSample, colorSpecPx samples = claimSpecPx samples := by
    intro samples
    unfold colorSpecPx claimSpecPx
    congr 1
    apply List.map_congr_left
    intro s _
    unfold brdfSpecOf weightedLight ndlOf pdfEmitterOf clampMin001
    ring
  refine ⟨?_, ?_, ?_, ?_⟩
  · unfold colorDiffuseImg
    exact List.map_congr_left fun p _ => hpxd p
  · unfold colorSpecImg
    simp only [if_true]
    exact List.map_congr_left fun p _ => hpxs p
  · unfold colorSpecImg
    simp [colorDiffuseImg]
  · intro c hc
    unfold colorSpecImg at hc
    simp at hc
    exact hc.2

/-- C1 witness: a one-pixel, one-sample image evaluated through the
theorem. -/
theorem forward_color_formula_witness :
    colorDiffuseImg [[⟨1, 1, 1, 1, 1⟩]] = [[⟨1, 1, 1, 1, 1⟩]].map claimDiffusePx ∧
    colorSpecImg true [[⟨1, 1, 1, 1, 1⟩]] = [[⟨1, 1, 1, 1, 1⟩]].map claimSpecPx ∧
    (colorSpecImg false [[⟨1, 1, 1, 1, 1⟩]]).length =
      (colorDiffuseImg [[⟨1, 1, 1, 1, 1⟩]]).length ∧
    (∀ c ∈ colorSpecImg false [[⟨1, 1, 1, 1, 1⟩]], c = (0 : ℝ)) :=
  forward_color_formula [[⟨1, 1, 1, 1, 1⟩]]

/-- The per-ray hit coordinate post-processing (render.py lines 203 and 206):
the miss sentinel `-1` is written first, then `flip(1)` swaps `(x, y)` into
`(i, j)` order (the flip of `(-1, -1)` is itself). -/
def ssrtUVOut (hit : Bool) (uv : ℤ × ℤ) : ℤ × ℤ :=
  if hit then (uv.2, uv.1) else (-1, -1)

/-- The per-ray uncertainty post-processing (lines 204 and 207):
`torch.tanh(10 * dz)`, overwritten with `1` where the hit mask is false. -/
noncomputable def ssrtUncertaintyOut (hit : Bool) (dz : ℝ) : ℝ :=
  if hit then Real.tanh (10 * dz) else 1

/-- C8: for a hit ray with nonnegative depth discrepancy (the `ssrt` kernel,
outside the sources, reports a hit when the marched depth falls behind the
stored depth, so its discrepancy is nonnegative — modelled from the spec),
the reported uncertainty equals `tanh(10 * dz)` clamped to `[0, 1]` (the
clamp is an identity there); for a missed ray, the hit coordinate is the
off-grid sentinel `(-1, -1)` and the uncertainty is exactly `1`.  Both
post-processings are total functions: every ray resolves to a result. -/
theorem ssrt_uncertainty_and_miss (hit : Bool) (uv : ℤ × ℤ) (dz : ℝ) :
    (hit = true → 0 ≤ dz →
      ssrtUncertaintyOut hit dz = min 1 (max 0 (Real.tanh (10 * dz)))) ∧
    (hit = false →
      ssrtUVOut hit uv = (-1, -1) ∧ ssrtUncertaintyOut hit dz = 1) := by
  constructor
  · intro hh hdz
    have h10 : 0 ≤ 10 * dz := by linarith
    have htanh0 : 0 ≤ Real.tanh (10 * dz) := by
      rw [Real.tanh_eq_sinh_div_cosh]
      exact div_nonneg (Real.sinh_nonneg_iff.mpr h10) (Real.cosh_pos _).le
    have htanh1 : Real.tanh (10 * dz) ≤ 1 := by
      rw [Real.tanh_eq_sinh_div_cosh]
      rw [div_le_one (Real.cosh_pos _)]
      exact (Real.sinh_lt_cosh _).le
    rw [max_eq_right htanh0, min_eq_right htanh1]
    unfold ssrtUncertaintyOut
    rw [hh]
    simp
  · intro hh
    unfold ssrtUVOut ssrtUncertaintyOut
    rw [hh]
    simp

/-- C8 witness: a hit ray with discrepancy 1/2, evaluated through the
theorem. -/
theorem ssrt_uncertainty_and_miss_witness :
    (true = true) ∧ ((0 : ℝ) ≤ 1 / 2) ∧
    ssrtUncertaintyOut true (1 / 2) = min 1 (max 0 (Real.tanh (10 * (1 / 2)))) :=
  ⟨rfl, by norm_num,
    (ssrt_uncertainty_and_miss true (0, 0) (1 / 2)).1 rfl (by norm_num)⟩

/-- Core algebra of the Duff et al. construction: on a unit input the three
produced vectors are orthonormal and right-handed, and the sign trick keeps
the division denominator at magnitude at least 1. -/
theorem frameFromUnit_orthonormal (z : Vec3) (hu : dotV z z = 1) :
    dotV (frameFromUnit z).1 (frameFromUnit z).1 = 1 ∧
    dotV (frameFromUnit z).2.1 (frameFromUnit z).2.1 = 1 ∧
    dotV (frameFromUnit z).2.2 (frameFromUnit z).2.2 = 1 ∧
    dotV (frameFromUnit z).1 (frameFromUnit z).2.1 = 0 ∧
    dotV (frameFromUnit z).1 (frameFromUnit z).2.2 = 0 ∧
    dotV (frameFromUnit z).2.1 (frameFromUnit z).2.2 = 0 ∧
    crossV (frameFromUnit z).1 (frameFromUnit z).2.1 = (frameFromUnit z).2.2 ∧
    1 ≤ |sgnOf (frameFromUnit z).2.2.z + (frameFromUnit z).2.2.z| := by
  obtain ⟨px, py, pz⟩ := z
  unfold dotV at hu
  dsimp at hu
  unfold frameFromUnit dotV crossV
  dsimp
  set s := sgnOf pz with hsdef
  have hs2 : s * s = 1 := by
    rw [hsdef]
    unfold sgnOf
    split <;> norm_num
  have hd : s + pz ≠ 0 := by
    rw [hsdef]
    unfold sgnOf
    split
    next h => intro hc; linarith
    next h =>
      push_neg at h
      intro hc
      linarith
  set a := -1 / (s + pz) with hadef
  have ha : a * (s + pz) = -1 := by
    rw [hadef]
    exact div_mul_cancel₀ (-1) hd
  have key : a * a * (px * px + py * py) + 2 * s * a + 1 = 0 := by
    linear_combination (a * a) * hu - (a * a) * hs2 + (a * (s - pz) + 1) * ha
  refine ⟨?_, ?_, ?_, ?_, ?_, ?_, ?_, ?_⟩
  · linear_combination (px * px) * key +
      (a * a * px * px * (px * px + py * py) + px * px) * hs2
  · linear_combination (py * py) * key + hs2
  · linear_combination hu
  · linear_combination (s * px * py) * key - (px * py * a) * hs2
  · linear_combination (s * px * a) * hu + (-px - s * px * a) * hs2 +
      (s * px * (s - pz)) * ha
  · linear_combination (py * a) * hu - (py * a) * hs2 + (py * (s - pz)) * ha
  · simp only [Vec3.mk.injEq]
    refine ⟨?_, ?_, ?_⟩
    · linear_combination px * hs2
    · ring
    · linear_combination a * hu + (a * (px * px - 1)) * hs2 + (s - pz) * ha
  · by_cases hzp : 0 ≤ pz
    · have hs1 : s = 1 := by
        rw [hsdef]
        unfold sgnOf
        rw [if_pos hzp]
      rw [hs1, abs_of_nonneg (by linarith)]
      linarith
    · have hs1 : s = -1 := by
        rw [hsdef]
        unfold sgnOf
        rw [if_neg hzp]
      push_neg at hzp
      rw [hs1, abs_of_nonpos (by linarith)]
      linarith

/-- The epsilon-floored normalization yields a unit vector whenever the
input's norm is at least eps (with eps positive). -/
theorem normalizeV_unit (n : Vec3) (eps : ℝ) (he : 0 < eps) (hn : eps ≤ normV n) :
    dotV (normalizeV n eps) (normalizeV n eps) = 1 := by
  have hN : 0 < normV n := lt_of_lt_of_le he hn
  have hmax : max (normV n) eps = normV n := max_eq_left hn
  have hdnn : 0 ≤ dotV n n := by
    unfold dotV
    nlinarith [mul_self_nonneg n.x, mul_self_nonneg n.y, mul_self_nonneg n.z]
  have hsq : normV n * normV n = dotV n n := Real.mul_self_sqrt hdnn
  have hNne : normV n ≠ 0 := ne_of_gt hN
  unfold normalizeV dotV
  dsimp
  rw [hmax]
  field_simp
  unfold dotV at hsq
  linarith [hsq]

/-- C5: for every input normal whose norm is at least the positive epsilon
floor, `create_frame` returns three mutually orthogonal unit vectors forming
a right-handed basis — `tangent_x × tangent_y = normal_z` holds exactly in
real arithmetic, hence within the claimed 1e-4, including at the axis-aligned
normals (0,0,±1) — and `sign(0)` is treated as `+1`, so the division
denominator `sgn + normal.z` has magnitude at least 1. -/
theorem create_frame_orthonormal_basis (n : Vec3) (eps : ℝ)
    (he : 0 < eps) (hn : eps ≤ normV n) :
    dotV (create_frame n eps).1 (create_frame n eps).1 = 1 ∧
    dotV (create_frame n eps).2.1 (create_frame n eps).2.1 = 1 ∧
    dotV (create_frame n eps).2.2 (create_frame n eps).2.2 = 1 ∧
    dotV (create_frame n eps).1 (create_frame n eps).2.1 = 0 ∧
    dotV (create_frame n eps).1 (create_frame n eps).2.2 = 0 ∧
    dotV (create_frame n eps).2.1 (create_frame n eps).2.2 = 0 ∧
    crossV (create_frame n eps).1 (create_frame n eps).2.1 = (create_frame n eps).2.2 ∧
    1 ≤ |sgnOf (create_frame n eps).2.2.z + (create_frame n eps).2.2.z| := by
  have hu := normalizeV_unit n eps he hn
  have h := frameFromUnit_orthonormal (normalizeV n eps) hu
  simpa [create_frame] using h

/-- C5 witness: the pole normal (0, 0, 1) with the source's eps = 1e-6. -/
theorem create_frame_orthonormal_basis_witness :
    ((0 : ℝ) < 1e-6) ∧ ((1e-6 : ℝ) ≤ normV ⟨0, 0, 1⟩) ∧
    (dotV (create_frame ⟨0, 0, 1⟩ 1e-6).1 (create_frame ⟨0, 0, 1⟩ 1e-6).1 = 1 ∧
     dotV (create_frame ⟨0, 0, 1⟩ 1e-6).2.1 (create_frame ⟨0, 0, 1⟩ 1e-6).2.1 = 1 ∧
     dotV (create_frame ⟨0, 0, 1⟩ 1e-6).2.2 (create_frame ⟨0, 0, 1⟩ 1e-6).2.2 = 1 ∧
     dotV (create_frame ⟨0, 0, 1⟩ 1e-6).1 (create_frame ⟨0, 0, 1⟩ 1e-6).2.1 = 0 ∧
     dotV (create_frame ⟨0, 0, 1⟩ 1e-6).1 (create_frame ⟨0, 0, 1⟩ 1e-6).2.2 = 0 ∧
     dotV (create_frame ⟨0, 0, 1⟩ 1e-6).2.1 (create_frame ⟨0, 0, 1⟩ 1e-6).2.2 = 0 ∧
     crossV (create_frame ⟨0, 0, 1⟩ 1e-6).1 (create_frame ⟨0, 0, 1⟩ 1e-6).2.1 =
       (create_frame ⟨0, 0, 1⟩ 1e-6).2.2 ∧
     1 ≤ |sgnOf (create_frame ⟨0, 0, 1⟩ 1e-6).2.2.z +
       (create_frame ⟨0, 0, 1⟩ 1e-6).2.2.z|) :=
  ⟨by norm_num, by unfold normV dotV; norm_num [Real.sqrt_one],
   create_frame_orthonormal_basis ⟨0, 0, 1⟩ 1e-6 (by norm_num)
     (by unfold normV dotV; norm_num [Real.sqrt_one])⟩

end IIDRender
